import Mathlib

/-!
Verification of the nixtea control plane against its design specification.

The definitions below are a shallow embedding of the Go sources:
  internal/nixapi/nixapi.go    (builder client)
  internal/suprvisor/sup.go    (supervisor)
  internal/db/db.go            (repository registry)
  internal/cli/cli.go          (one-shot command surface)
External effects (the nix subprocess, the filesystem, OS signals, the
done channel) are passed in as explicit oracle values describing the
outcome the OS produced, and each Go function becomes a pure Lean
function of its inputs and that oracle.
-/

namespace Nixtea

/-! ## Builder client: internal/nixapi/nixapi.go -/

/-- PackageInfo from nixapi.go: package metadata from flake output. -/
structure PackageInfo where
  name : String
  type : String
deriving DecidableEq, Repr

/-- BuildResult from nixapi.go: the output of building a package. -/
structure BuildResult where
  storePath : String
  binaryPath : String
deriving DecidableEq, Repr

/-- The error cases of BuildPkg / BuildPackage in nixapi.go, one constructor
per distinct fmt.Errorf site. -/
inductive BuildErr where
  /-- nix build exited non-zero; carries the combined output. -/
  | buildFailed (output : String)
  /-- BuildPkg: trimmed output was empty ("no store path returned from build"). -/
  | noStorePath
  /-- BuildPackage: trimmed output was empty ("empty store path returned"). -/
  | emptyStorePath
  /-- BuildPkg: os.ReadDir(storePath/bin) returned an error. -/
  | readBinDirFailed
  /-- "no binaries found in <bin>". -/
  | noBinaries
  /-- BuildPkg: "multiple binaries found in <bin>: <names>". -/
  | multipleBinaries (names : List String)
deriving DecidableEq, Repr

/-- Rendering of a BuildErr, following the shape of the Go error strings. -/
def BuildErr.msg : BuildErr → String
  | .buildFailed output => "build failed: " ++ output
  | .noStorePath => "no store path returned from build"
  | .emptyStorePath => "empty store path returned"
  | .readBinDirFailed => "failed to read bin directory"
  | .noBinaries => "no binaries found"
  | .multipleBinaries _ => "multiple binaries found"

/-- strings.TrimSpace from the Go standard library: drop whitespace from
both ends. Defined over the character list so that it evaluates by kernel
reduction. -/
def trimSpace (s : String) : String :=
  String.mk (((s.data.dropWhile Char.isWhitespace).reverse.dropWhile
    Char.isWhitespace).reverse)

/-- What the filesystem says about the store path produced by nix build:
the result of os.Stat on it, and the result of os.ReadDir on its bin
subdirectory (`none` means ReadDir returned an error, as it does when the
store path is a regular file or has no bin directory). -/
structure StoreFS where
  statOk : Bool
  isDir : Bool
  binEntries : Option (List String)
deriving DecidableEq, Repr

/-- Oracle for one nix build invocation: the combined output on success,
or the combined output of a non-zero exit, plus the filesystem view of
the resulting store path. -/
structure BuildEnv where
  run : Except String String
  fs : StoreFS

/-- BuildPkg from nixapi.go (the build used by the supervisor Hydrate path).
It trims the output, rejects an empty store path, and then always reads
storePath/bin: 0 entries and 2+ entries are errors, and a ReadDir failure
(in particular a store path that is a regular file) is an error. -/
def BuildPkg (env : BuildEnv) : Except BuildErr BuildResult :=
  match env.run with
  | .error output => .error (.buildFailed output)
  | .ok output =>
      let storePath := trimSpace output
      if storePath = "" then .error .noStorePath
      else
        match env.fs.binEntries with
        | none => .error .readBinDirFailed
        | some [] => .error .noBinaries
        | some [entry] => .ok ⟨storePath, storePath ++ "/bin/" ++ entry⟩
        | some entries => .error (.multipleBinaries entries)

/-- BuildPackage from nixapi.go (the variant used only by a draft of ctx
update). It checks whether the store path is a regular file, falls back to
the store path itself when bin is unreadable, and takes the FIRST entry of
bin without erroring when there are several. -/
def BuildPackage (env : BuildEnv) : Except BuildErr BuildResult :=
  match env.run with
  | .error output => .error (.buildFailed output)
  | .ok output =>
      let storePath := trimSpace output
      if storePath = "" then .error .emptyStorePath
      else if env.fs.statOk && !env.fs.isDir then .ok ⟨storePath, storePath⟩
      else
        match env.fs.binEntries with
        | none => .ok ⟨storePath, storePath⟩
        | some [] => .error .noBinaries
        | some (entry :: _) => .ok ⟨storePath, storePath ++ "/bin/" ++ entry⟩

/-- Modelled from the spec: the binary-resolution rule of section 3.
If the store path is itself a regular file, that is the binary; otherwise
store_path/bin must contain exactly one entry, which is the binary; zero
entries is a "no binaries" error and two or more a "multiple binaries"
error. Stated separately from the code so the two can be compared. -/
def specResolveBinary (fs : StoreFS) (storePath : String) : Except BuildErr String :=
  if fs.statOk && !fs.isDir then .ok storePath
  else
    match fs.binEntries with
    | some [entry] => .ok (storePath ++ "/bin/" ++ entry)
    | some [] => .error .noBinaries
    | some entries => .error (.multipleBinaries entries)
    | none => .error .noBinaries

/-- A store path that is a regular file: stat succeeds, not a directory,
and ReadDir of its bin fails. -/
def regularFileFS : StoreFS := ⟨true, false, none⟩

/-- Claim C1, counterexample: at a build whose store path is a regular
file, the spec rule says the store path itself is the binary, but BuildPkg
(the resolution every target build goes through) fails with a read error
on the bin directory, so resolution does not follow the spec rule. -/
theorem C1_counterexample :
    specResolveBinary regularFileFS "/nix/store/c1demo" = .ok "/nix/store/c1demo" ∧
    BuildPkg ⟨.ok "/nix/store/c1demo", regularFileFS⟩ = .error .readBinDirFailed := by
  constructor <;> rfl

/-- Claim C1, amended: for every build of a target (BuildPkg) whose nix
invocation succeeds with a non-empty trimmed store path, resolution always
reads store_path/bin: an unreadable bin (in particular a regular-file
store path) is an error, 0 entries fails with the "no binaries" error, 2+
entries fails with the "multiple binaries" error, and exactly 1 entry is
returned as the binary. -/
theorem C1_buildPkg_resolution (env : BuildEnv) (output : String)
    (hrun : env.run = .ok output) (hne : ¬ trimSpace output = "") :
    (env.fs.binEntries = none → BuildPkg env = .error .readBinDirFailed) ∧
    (env.fs.binEntries = some [] → BuildPkg env = .error .noBinaries) ∧
    (∀ entry, env.fs.binEntries = some [entry] →
      BuildPkg env = .ok ⟨trimSpace output, trimSpace output ++ "/bin/" ++ entry⟩) ∧
    (∀ a b rest, env.fs.binEntries = some (a :: b :: rest) →
      BuildPkg env = .error (.multipleBinaries (a :: b :: rest))) := by
  refine ⟨?_, ?_, ?_, ?_⟩
  · intro h; simp [BuildPkg, hrun, hne, h]
  · intro h; simp [BuildPkg, hrun, hne, h]
  · intro entry h; simp [BuildPkg, hrun, hne, h]
  · intro a b rest h; simp [BuildPkg, hrun, hne, h]

/-- Concrete instance of the amended C1 statement, with one entry in bin. -/
theorem C1_buildPkg_resolution_witness :
    BuildPkg ⟨.ok "/nix/store/c1w", ⟨false, true, some ["app"]⟩⟩ =
      .ok ⟨trimSpace "/nix/store/c1w", trimSpace "/nix/store/c1w" ++ "/bin/" ++ "app"⟩ :=
  (C1_buildPkg_resolution ⟨.ok "/nix/store/c1w", ⟨false, true, some ["app"]⟩⟩
    "/nix/store/c1w" rfl (by decide)).2.2.1 "app" rfl

/-! ## Supervisor: internal/suprvisor/sup.go

The supervisor owns a map from package key to Runnable, protected by a
single lock; every write of Status and PID happens inside one
lock-protected critical section.  We model the committed state after each
critical section: a step relation whose events are exactly the writes the
code performs (Hydrate map replacement, the Run spawn commit, the waiter
goroutine that observes a child exit, and the final write of Stop).  A
ghost field `live` tracks the pids of OS processes that the supervisor
spawned and that have not yet exited, so that orphaned processes remain
observable. -/

/-- The Status strings written anywhere in the suprvisor package:
"stopped", "running", "build_failed". -/
inductive Status where
  | stopped
  | running
  | buildFailed
deriving DecidableEq, Repr

/-- The fields of Runnable that the snapshot exposes (name, BinaryPath,
Status, PID).  PID is 0 whenever the child is not running. -/
structure Item where
  name : String
  binaryPath : String
  status : Status
  pid : Nat
deriving DecidableEq, Repr

/-- The supervisor map, as an association list keyed by package key. -/
abbrev Items := List (String × Item)

/-- Committed supervisor state plus the ghost set of live spawned pids. -/
structure SupState where
  items : Items
  live : List Nat
deriving DecidableEq, Repr

/-- NewSupervisor: empty map, no spawned process. -/
def initState : SupState := ⟨[], []⟩

/-- The Runnable entry Hydrate creates for one package: Status "stopped"
and PID 0, then BinaryPath on build success or status "build_failed" on
build error. -/
def buildItem (pkg : PackageInfo) (res : Except BuildErr BuildResult) : Item :=
  match res with
  | .ok br => ⟨pkg.name, br.binaryPath, .stopped, 0⟩
  | .error _ => ⟨pkg.name, "", .buildFailed, 0⟩

/-- The fresh map Hydrate installs: one entry per enumerated package,
built with BuildPkg (here an oracle from key to build outcome). -/
def hydrateItems (pkgs : List (String × PackageInfo))
    (build : String → Except BuildErr BuildResult) : Items :=
  pkgs.map (fun kp => (kp.1, buildItem kp.2 (build kp.1)))

/-- The keys Hydrate records in BuildError.Failed, with their errors. -/
def hydrateFailed (pkgs : List (String × PackageInfo))
    (build : String → Except BuildErr BuildResult) : List (String × BuildErr) :=
  pkgs.filterMap (fun kp =>
    match build kp.1 with
    | .error e => some (kp.1, e)
    | .ok _ => none)

/-- The keys Hydrate records in BuildError.Success. -/
def hydrateSuccess (pkgs : List (String × PackageInfo))
    (build : String → Except BuildErr BuildResult) : List String :=
  pkgs.filterMap (fun kp =>
    match build kp.1 with
    | .ok _ => some kp.1
    | .error _ => none)

/-- One committed critical section of the suprvisor package. -/
inductive Event where
  /-- Hydrate with a successful package enumeration: resets the items map
  to the freshly built set.  The code sends no signal to any previously
  running child. -/
  | hydrate (pkgs : List (String × PackageInfo))
      (build : String → Except BuildErr BuildResult)
  /-- The state write of Run after cmd.Start() succeeded: Status
  "running", PID recorded.  A successfully spawned process has a positive
  OS pid. -/
  | runStart (key : String) (pid : Nat)
  /-- The waiter goroutine of Run: cmd.Wait() returned, so the child was
  reaped; Status "stopped", PID 0. -/
  | childExit (key : String)
  /-- The final write of Stop after the done channel fired or SIGKILL was
  sent: Status "stopped", PID 0. -/
  | stopWrite (key : String)

/-- Replace the entry at `key` in an association list. -/
def setItem (items : Items) (key : String) (it : Item) : Items :=
  items.map (fun kv => if kv.1 = key then (key, it) else kv)

/-- Apply one committed critical section; `none` when its preconditions
(the guard checks the code performs before the write) do not hold. -/
def applyEvent (s : SupState) (e : Event) : Option SupState :=
  match e with
  | .hydrate pkgs build =>
      some ⟨hydrateItems pkgs build, s.live⟩
  | .runStart key pid =>
      match s.items.lookup key with
      | none => none
      | some it =>
          if it.status = .stopped ∧ ¬ it.binaryPath = "" ∧ 0 < pid then
            some ⟨setItem s.items key { it with status := .running, pid := pid },
                  pid :: s.live⟩
          else none
  | .childExit key =>
      match s.items.lookup key with
      | none => none
      | some it =>
          if it.status = .running then
            some ⟨setItem s.items key { it with status := .stopped, pid := 0 },
                  s.live.erase it.pid⟩
          else none
  | .stopWrite key =>
      match s.items.lookup key with
      | none => none
      | some it =>
          some ⟨setItem s.items key { it with status := .stopped, pid := 0 },
                s.live⟩

/-- Run a sequence of committed critical sections. -/
def applyEvents (s : SupState) (evs : List Event) : Option SupState :=
  match evs with
  | [] => some s
  | e :: rest =>
      match applyEvent s e with
      | none => none
      | some s2 => applyEvents s2 rest

/-- ItemState from sup.go: the public snapshot of one Runnable. -/
structure ItemState where
  name : String
  status : Status
  pid : Nat
  binaryPath : String
deriving DecidableEq, Repr

/-- GetSupervised from sup.go: a defensive copy of the public fields of
every entry, taken under the read lock. -/
def GetSupervised (s : SupState) : List (String × ItemState) :=
  s.items.map (fun kv => (kv.1, ⟨kv.2.name, kv.2.status, kv.2.pid, kv.2.binaryPath⟩))

/-- HasItems from sup.go: len(s.items) > 0. -/
def HasItems (s : SupState) : Bool :=
  !s.items.isEmpty

/-- Status/pid coherence of a supervisor state. -/
def Coherent (s : SupState) : Prop :=
  ∀ kv ∈ s.items, (kv.2.status = Status.running ↔ 0 < kv.2.pid)

theorem coherent_init : Coherent initState := by
  intro kv hkv
  simp [initState] at hkv

theorem coherent_hydrateItems (pkgs : List (String × PackageInfo))
    (build : String → Except BuildErr BuildResult) (live : List Nat) :
    Coherent ⟨hydrateItems pkgs build, live⟩ := by
  intro kv hkv
  simp only [hydrateItems, List.mem_map] at hkv
  obtain ⟨kp, _, rfl⟩ := hkv
  cases h : build kp.1 <;> simp [buildItem, h]

theorem mem_setItem {items : Items} {key : String} {it : Item} {kv : String × Item}
    (h : kv ∈ setItem items key it) : kv ∈ items ∨ kv = (key, it) := by
  simp only [setItem, List.mem_map] at h
  obtain ⟨kv0, hkv0, heq⟩ := h
  by_cases hk : kv0.1 = key
  · rw [if_pos hk] at heq
    right; exact heq.symm
  · rw [if_neg hk] at heq
    left; exact heq ▸ hkv0

/-- A successful association-list lookup yields a member of the list. -/
theorem lookup_mem {α β : Type} [BEq α] [LawfulBEq α] {l : List (α × β)} {k : α} {v : β}
    (h : l.lookup k = some v) : (k, v) ∈ l := by
  induction l with
  | nil => simp [List.lookup] at h
  | cons kv rest ih =>
      obtain ⟨k1, v1⟩ := kv
      by_cases hk : k == k1
      · simp only [List.lookup, hk, Option.some.injEq] at h
        have : k = k1 := by simpa using hk
        subst this
        subst h
        exact List.mem_cons_self _ _
      · simp only [List.lookup, Bool.not_eq_true] at h
        rw [Bool.of_not_eq_true hk] at h
        exact List.mem_cons_of_mem _ (ih h)

theorem coherent_step {s s2 : SupState} {e : Event}
    (hstep : applyEvent s e = some s2) (hs : Coherent s) : Coherent s2 := by
  cases e with
  | hydrate pkgs build =>
      simp only [applyEvent, Option.some.injEq] at hstep
      subst hstep
      exact coherent_hydrateItems pkgs build s.live
  | runStart key pid =>
      simp only [applyEvent] at hstep
      split at hstep
      · exact absurd hstep (by simp)
      · split at hstep
        · next it _ hcond =>
            injection hstep with hstep
            subst hstep
            intro kv hkv
            rcases mem_setItem hkv with hmem | rfl
            · exact hs kv hmem
            · simpa using hcond.2.2
        · exact absurd hstep (by simp)
  | childExit key =>
      simp only [applyEvent] at hstep
      split at hstep
      · exact absurd hstep (by simp)
      · split at hstep
        · injection hstep with hstep
          subst hstep
          intro kv hkv
          rcases mem_setItem hkv with hmem | rfl
          · exact hs kv hmem
          · simp
        · exact absurd hstep (by simp)
  | stopWrite key =>
      simp only [applyEvent] at hstep
      split at hstep
      · exact absurd hstep (by simp)
      · injection hstep with hstep
        subst hstep
        intro kv hkv
        rcases mem_setItem hkv with hmem | rfl
        · exact hs kv hmem
        · simp

theorem coherent_applyEvents {s s2 : SupState} {evs : List Event}
    (h : applyEvents s evs = some s2) (hs : Coherent s) : Coherent s2 := by
  induction evs generalizing s with
  | nil => simp only [applyEvents, Option.some.injEq] at h; exact h ▸ hs
  | cons e rest ih =>
      simp only [applyEvents] at h
      cases hstep : applyEvent s e with
      | none => rw [hstep] at h; exact absurd h (by simp)
      | some smid =>
          rw [hstep] at h
          exact ih h (coherent_step hstep hs)

/-- Claim C3: for every sequence of supervisor operations (Hydrate, Run,
Stop, child-exit) and every snapshot taken of a managed child through
GetSupervised, the snapshot satisfies status = "running" if and only if
pid > 0; in particular no observer ever sees status "running" together
with pid = 0.  Lock-protected critical sections are modelled as atomic
steps, and a successful spawn records the positive OS pid of the child. -/
theorem C3_status_pid_coherence (evs : List Event) (s : SupState)
    (key : String) (snap : ItemState)
    (hreach : applyEvents initState evs = some s)
    (hsnap : (GetSupervised s).lookup key = some snap) :
    snap.status = Status.running ↔ 0 < snap.pid := by
  have hco : Coherent s := coherent_applyEvents hreach coherent_init
  have hmem := lookup_mem hsnap
  simp only [GetSupervised, List.mem_map] at hmem
  obtain ⟨kv, hkv, heq⟩ := hmem
  have hsnap2 : snap = ⟨kv.2.name, kv.2.status, kv.2.pid, kv.2.binaryPath⟩ := by
    have := congrArg Prod.snd heq
    simpa using this.symm
  rw [hsnap2]
  simpa using hco kv hkv

/-- One step of demo events for the C3 witness: hydrate one package, then
start it with pid 5. -/
def c3DemoEvents : List Event :=
  [ .hydrate [("a", ⟨"pkg-a", "derivation"⟩)]
      (fun _ => .ok ⟨"/nix/store/a", "/nix/store/a/bin/a"⟩),
    .runStart "a" 5 ]

/-- The state reached by the C3 demo events. -/
def c3DemoState : SupState :=
  ⟨[("a", ⟨"pkg-a", "/nix/store/a/bin/a", .running, 5⟩)], [5]⟩

/-- Concrete instance of C3: the snapshot of the demo child, observed
running with pid 5, satisfies the coherence property. -/
theorem C3_status_pid_coherence_witness :
    (ItemState.mk "pkg-a" Status.running 5 "/nix/store/a/bin/a").status = Status.running ↔
      0 < (ItemState.mk "pkg-a" Status.running 5 "/nix/store/a/bin/a").pid :=
  C3_status_pid_coherence c3DemoEvents c3DemoState "a" _ rfl rfl

/-- The build oracle used by the C2 failing input. -/
def c2Build : String → Except BuildErr BuildResult :=
  fun _ => .ok ⟨"/nix/store/a", "/nix/store/a/bin/a"⟩

/-- The C2 failing input: materialize a repository with one package, start
it (pid 42), then materialize a repository with no packages. -/
def c2Trace : List Event :=
  [ .hydrate [("a", ⟨"pkg-a", "derivation"⟩)] c2Build,
    .runStart "a" 42,
    .hydrate [] c2Build ]

/-- Claim C2: Hydrate (sup.go lines 52-112) resets the items map with no
call to Stop and no signal to any running child.  First conjunct: on any
state, the hydrate step replaces the map and leaves the set of live
spawned processes untouched.  Second conjunct: on the concrete failing
input, after the second Hydrate the map is empty while the child spawned
with pid 42 is still live, so the running child was replaced without
being stopped. -/
theorem C2_hydrate_does_not_stop (s : SupState)
    (pkgs : List (String × PackageInfo))
    (build : String → Except BuildErr BuildResult) :
    applyEvent s (.hydrate pkgs build) = some ⟨hydrateItems pkgs build, s.live⟩ ∧
    applyEvents initState c2Trace = some ⟨[], [42]⟩ := by
  exact ⟨rfl, rfl⟩

/-! ## Stop (sup.go lines 228-279), in detail

Stop is modelled as a pure function of the looked-up Runnable and an
oracle for the OS interactions: Getpgid, the two Kill calls, and what the
select over the done channel and the 5-second timer produced. -/

/-- The fields of a Runnable that Stop consults: Status, PID, and whether
the process field is non-nil. -/
structure RunnableS where
  status : Status
  pid : Nat
  hasProc : Bool
deriving DecidableEq, Repr

/-- Oracle for one Stop call.  `done = some none` means the done channel
fired within 5 seconds with a nil error (the child was reaped cleanly);
`done = some (some m)` means it fired with error string m; `done = none`
means the 5-second timer fired first. -/
structure StopEnv where
  pgid : Option Nat
  termOk : Bool
  done : Option (Option String)
  killOk : Bool
deriving DecidableEq, Repr

/-- What one Stop call did: its return value, the (negative) targets of
the SIGTERM and SIGKILL that were issued, whether the record was written
to stopped/0 by this call, whether the done channel had fired (the child
had been reaped) at the moment of that write, and the final record. -/
structure StopOutcome where
  result : Except String Unit
  sigtermTarget : Option Int
  sigkillTarget : Option Int
  transitioned : Bool
  reaped : Bool
  item : Option RunnableS
deriving Repr

/-- Stop from sup.go.  Checks the entry exists and is running with a live
process field, resolves the process group of the recorded PID, sends
SIGTERM to the negative group id, then selects between the done channel
and a 5-second timer; on timeout it sends SIGKILL to the group and — in
the code — falls through to the same state write as the graceful path,
marking the record stopped without waiting for the reap.  A done-channel
error equal to "signal: terminated" is treated as success. -/
def Stop (entry : Option RunnableS) (env : StopEnv) : StopOutcome :=
  match entry with
  | none => ⟨.error "package not found", none, none, false, false, none⟩
  | some rn =>
      if ¬ (rn.status = .running ∧ rn.hasProc) then
        ⟨.error "package is not running", none, none, false, false, some rn⟩
      else
        match env.pgid with
        | none => ⟨.error "failed to get process group", none, none, false, false, some rn⟩
        | some g =>
            let target : Int := -(g : Int)
            if ¬ env.termOk then
              ⟨.error "failed to terminate process", some target, none, false, false, some rn⟩
            else
              match env.done with
              | some res =>
                  match res with
                  | some m =>
                      if ¬ m = "signal: terminated" then
                        ⟨.error ("process terminated with error: " ++ m),
                          some target, none, false, true, some rn⟩
                      else
                        ⟨.ok (), some target, none, true, true, some ⟨.stopped, 0, false⟩⟩
                  | none =>
                      ⟨.ok (), some target, none, true, true, some ⟨.stopped, 0, false⟩⟩
              | none =>
                  if ¬ env.killOk then
                    ⟨.error "failed to force kill process", some target, some target,
                      false, false, some rn⟩
                  else
                    ⟨.ok (), some target, some target, true, false, some ⟨.stopped, 0, false⟩⟩

/-- A running Runnable with pid 7 for the C5 failing input. -/
def c5Runnable : RunnableS := ⟨.running, 7, true⟩

/-- Oracle for the C5 failing input: the process group resolves, SIGTERM
is delivered, the done channel does not fire within 5 seconds, SIGKILL is
delivered. -/
def c5TimeoutEnv : StopEnv := ⟨some 7, true, none, true⟩

/-- Claim C5, counterexample: when the 5-second wait times out, Stop
sends SIGKILL and then immediately returns success with the record
transitioned to stopped, even though the child has not been reaped (the
done channel never fired), contradicting the claim that the record
transitions to stopped only after the child has been reaped. -/
theorem C5_counterexample :
    (Stop (some c5Runnable) c5TimeoutEnv).result = .ok () ∧
    (Stop (some c5Runnable) c5TimeoutEnv).transitioned = true ∧
    (Stop (some c5Runnable) c5TimeoutEnv).reaped = false ∧
    (Stop (some c5Runnable) c5TimeoutEnv).item = some ⟨.stopped, 0, false⟩ := by
  refine ⟨rfl, rfl, rfl, rfl⟩

/-- Claim C5, amended: for every stop(key) on a running child whose
process group resolves to g and whose SIGTERM is delivered, Stop sends
SIGTERM to the negative process-group id; if the done channel fires
within 5 seconds with a nil error or with "signal: terminated" the call
succeeds and the record transitions to stopped (pid 0) after the reap,
and "signal: terminated" is not treated as an error; if it fires with any
other error the call fails without this call writing the record; if the
5-second wait times out, Stop sends SIGKILL to the process group and, on
successful delivery, immediately marks the record stopped WITHOUT waiting
for the child to be reaped. -/
theorem C5_stop_protocol (rn : RunnableS) (env : StopEnv) (g : Nat)
    (hrun : rn.status = .running) (hproc : rn.hasProc = true)
    (hpgid : env.pgid = some g) (hterm : env.termOk = true) :
    (Stop (some rn) env).sigtermTarget = some (-(g : Int)) ∧
    (env.done = some none →
      (Stop (some rn) env).result = .ok () ∧
      (Stop (some rn) env).transitioned = true ∧
      (Stop (some rn) env).reaped = true ∧
      (Stop (some rn) env).item = some ⟨.stopped, 0, false⟩ ∧
      (Stop (some rn) env).sigkillTarget = none) ∧
    (env.done = some (some "signal: terminated") →
      (Stop (some rn) env).result = .ok () ∧
      (Stop (some rn) env).transitioned = true ∧
      (Stop (some rn) env).reaped = true) ∧
    (∀ m, env.done = some (some m) → ¬ m = "signal: terminated" →
      (Stop (some rn) env).result = .error ("process terminated with error: " ++ m) ∧
      (Stop (some rn) env).transitioned = false) ∧
    (env.done = none →
      (Stop (some rn) env).sigkillTarget = some (-(g : Int)) ∧
      (env.killOk = true →
        (Stop (some rn) env).result = .ok () ∧
        (Stop (some rn) env).transitioned = true ∧
        (Stop (some rn) env).reaped = false)) := by
  refine ⟨?_, ?_, ?_, ?_, ?_⟩
  · rcases hdone : env.done with _ | res
    · cases hk : env.killOk <;> simp [Stop, hrun, hproc, hpgid, hterm, hdone, hk]
    · rcases res with _ | m
      · simp [Stop, hrun, hproc, hpgid, hterm, hdone]
      · by_cases hm : m = "signal: terminated" <;>
          simp [Stop, hrun, hproc, hpgid, hterm, hdone, hm]
  · intro hdone
    simp [Stop, hrun, hproc, hpgid, hterm, hdone]
  · intro hdone
    simp [Stop, hrun, hproc, hpgid, hterm, hdone]
  · intro m hdone hm
    simp [Stop, hrun, hproc, hpgid, hterm, hdone, hm]
  · intro hdone
    constructor
    · cases hk : env.killOk <;> simp [Stop, hrun, hproc, hpgid, hterm, hdone, hk]
    · intro hkill
      simp [Stop, hrun, hproc, hpgid, hterm, hdone, hkill]

/-- Concrete instance of the amended C5 statement: graceful path with the
child exiting on SIGTERM ("signal: terminated" not an error). -/
theorem C5_stop_protocol_witness :
    (Stop (some ⟨.running, 9, true⟩) ⟨some 9, true, some (some "signal: terminated"), true⟩).result
        = .ok () ∧
    (Stop (some ⟨.running, 9, true⟩) ⟨some 9, true, some (some "signal: terminated"), true⟩).transitioned
        = true ∧
    (Stop (some ⟨.running, 9, true⟩) ⟨some 9, true, some (some "signal: terminated"), true⟩).reaped
        = true :=
  (C5_stop_protocol ⟨.running, 9, true⟩ ⟨some 9, true, some (some "signal: terminated"), true⟩
    9 rfl rfl rfl rfl).2.2.1 rfl

/-! ## Run (sup.go lines 115-225), in detail -/

/-- Oracle for one Run call: whether the two pipe creations succeed and
whether cmd.Start() succeeds (carrying the positive OS pid of the spawned
child). -/
structure RunEnv where
  stdoutPipeOk : Bool
  stderrPipeOk : Bool
  spawn : Option Nat
deriving DecidableEq, Repr

/-- What one Run call did: its return value, whether an OS process was
spawned, and the resulting items map. -/
structure RunOutcome where
  result : Except String Unit
  spawned : Bool
  items : Items

/-- Whether an Except value is an error. -/
def isErr {ε α : Type} : Except ε α → Bool
  | .error _ => true
  | .ok _ => false

/-- Run from sup.go.  Looks the key up; errors on a missing entry, on
Status "running", on Status "build_failed", and on an empty BinaryPath;
then creates the pipes and spawns; only a successful spawn mutates the
record to running with the new pid. -/
def Run (items : Items) (key : String) (env : RunEnv) : RunOutcome :=
  match items.lookup key with
  | none => ⟨.error ("package " ++ key ++ " not found"), false, items⟩
  | some it =>
      if it.status = .running then
        ⟨.error ("package " ++ key ++ " is already running"), false, items⟩
      else if it.status = .buildFailed then
        ⟨.error ("package " ++ key ++ " failed to build, cannot run"), false, items⟩
      else if it.binaryPath = "" then
        ⟨.error ("no binary path for package " ++ key), false, items⟩
      else if ¬ env.stdoutPipeOk then
        ⟨.error "failed to create stdout pipe", false, items⟩
      else if ¬ env.stderrPipeOk then
        ⟨.error "failed to create stderr pipe", false, items⟩
      else
        match env.spawn with
        | none => ⟨.error "failed to start process", false, items⟩
        | some pid =>
            ⟨.ok (), true, setItem items key { it with status := .running, pid := pid }⟩

/-- Claim C6: Run returns an error and spawns no process when the entry
is absent, when its status is "running", when its status is
"build_failed", or when its binary path is empty; and it spawns only when
the entry exists with status "stopped" and a non-empty binary path. -/
theorem C6_run_preconditions (items : Items) (key : String) (env : RunEnv) :
    (items.lookup key = none →
      isErr (Run items key env).result = true ∧ (Run items key env).spawned = false) ∧
    (∀ it, items.lookup key = some it →
      (it.status = .running ∨ it.status = .buildFailed ∨ it.binaryPath = "") →
      isErr (Run items key env).result = true ∧ (Run items key env).spawned = false) ∧
    ((Run items key env).spawned = true →
      ∃ it, items.lookup key = some it ∧ it.status = .stopped ∧ ¬ it.binaryPath = "") := by
  refine ⟨?_, ?_, ?_⟩
  · intro h
    simp [Run, h, isErr]
  · intro it hlook hbad
    rcases hbad with hb | hb | hb
    · simp [Run, hlook, hb, isErr]
    · have : ¬ it.status = Status.running := by rw [hb]; intro hc; cases hc
      simp [Run, hlook, hb, this, isErr]
    · rcases hstat : it.status with _ | _ | _
      · simp [Run, hlook, hb, hstat, isErr]
      · simp [Run, hlook, hstat, isErr]
      · simp [Run, hlook, hstat, isErr]
  · intro hsp
    rcases hlook : items.lookup key with _ | it
    · simp [Run, hlook] at hsp
    · refine ⟨it, rfl, ?_⟩
      rcases hstat : it.status with _ | _ | _
      · by_cases hbin : it.binaryPath = ""
        · simp [Run, hlook, hstat, hbin] at hsp
        · exact ⟨rfl, hbin⟩
      · simp [Run, hlook, hstat] at hsp
      · simp [Run, hlook, hstat] at hsp

/-- Concrete instance of C6: Run on an absent key errors and spawns
nothing. -/
theorem C6_run_preconditions_witness :
    isErr (Run [] "web" ⟨true, true, some 3⟩).result = true ∧
    (Run [] "web" ⟨true, true, some 3⟩).spawned = false :=
  (C6_run_preconditions [] "web" ⟨true, true, some 3⟩).1 rfl

/-! ## Repository registry: internal/db/db.go

The repositories table is modelled as a list of rows in insertion order.
The url column carries a UNIQUE constraint and id is the primary key;
SaveRepo inserts only after checking the url is absent, and a violated
primary key aborts the transaction leaving the table unchanged.
Timestamps are not modelled. -/

/-- One row of the repositories table. -/
structure Repo where
  id : String
  url : String
  active : Bool
deriving DecidableEq, Repr

/-- SaveRepo from db.go, with the freshly generated id passed in.  If a
row with the url exists, one UPDATE sets active = (url matches) on every
row.  Otherwise every row is deactivated and a new active row is
inserted; an id collision violates the primary key and rolls the
transaction back. -/
def SaveRepo (db : List Repo) (url id : String) : List Repo :=
  if db.any (fun r => r.url == url) then
    db.map (fun r => { r with active := r.url == url })
  else if db.any (fun r => r.id == id) then
    db
  else
    db.map (fun r => { r with active := false }) ++ [⟨id, url, true⟩]

/-- DeleteRepo from db.go: the DELETE statement runs outside any
transaction, so the rows are removed regardless of the rows-affected
check that follows. -/
def DeleteRepo (db : List Repo) (id : String) : List Repo :=
  db.filter (fun r => ¬ r.id == id)

/-- One mutation of the registry. -/
inductive DbEvent where
  | save (url id : String)
  | del (id : String)

/-- Apply one mutation. -/
def applyDbEvent (db : List Repo) (e : DbEvent) : List Repo :=
  match e with
  | .save url id => SaveRepo db url id
  | .del id => DeleteRepo db id

/-- Apply a sequence of mutations to the freshly created (empty) table. -/
def applyDbEvents (db : List Repo) (evs : List DbEvent) : List Repo :=
  evs.foldl applyDbEvent db

/-- The number of rows with active = true. -/
def activeCount (db : List Repo) : Nat :=
  (db.filter (fun r => r.active)).length

/-- The registry invariant maintained by the mutators: urls are unique
(the UNIQUE constraint) and at most one row is active. -/
def DbInv (db : List Repo) : Prop :=
  (db.map (fun r => r.url)).Nodup ∧ activeCount db ≤ 1

theorem dbInv_nil : DbInv [] := by
  constructor
  · simp
  · simp [activeCount]

/-- Reactivating by url keeps the url column unchanged. -/
theorem urls_map_active (db : List Repo) (f : Repo → Bool) :
    (db.map (fun r => { r with active := f r })).map (fun r => r.url)
      = db.map (fun r => r.url) := by
  induction db with
  | nil => rfl
  | cons r rest ih => simp [ih]

/-- With unique urls, at most one row matches a given url. -/
theorem filter_url_len_le_one (db : List Repo) (url : String)
    (hnodup : (db.map (fun r => r.url)).Nodup) :
    (db.filter (fun r => r.url == url)).length ≤ 1 := by
  induction db with
  | nil => simp
  | cons r rest ih =>
      simp only [List.map_cons, List.nodup_cons] at hnodup
      obtain ⟨hr, hrest⟩ := hnodup
      by_cases hu : r.url == url
      · have hru : r.url = url := by simpa using hu
        have hnone : rest.filter (fun x => x.url == url) = [] := by
          rw [List.filter_eq_nil_iff]
          intro x hx hxu
          exact hr (by
            rw [hru]
            have : x.url = url := by simpa using hxu
            rw [← this]
            exact List.mem_map_of_mem _ hx)
        simp [List.filter_cons, hu, hnone]
      · simp only [List.filter_cons, hu]
        simp only [Bool.false_eq_true, if_false]
        exact ih hrest

/-- The active rows after a url-keyed reactivation are the rows matching
the url. -/
theorem filter_active_map (db : List Repo) (url : String) :
    (db.map (fun r => { r with active := r.url == url })).filter (fun r => r.active)
      = (db.filter (fun r => r.url == url)).map (fun r => { r with active := r.url == url }) := by
  induction db with
  | nil => rfl
  | cons r rest ih =>
      by_cases hu : r.url == url <;> simp [List.filter_cons, hu, ih]

/-- Deactivating every row leaves no active row. -/
theorem filter_active_deact (db : List Repo) :
    (db.map (fun r => { r with active := false })).filter (fun r => r.active) = [] := by
  induction db with
  | nil => rfl
  | cons r rest ih => simp [List.filter_cons, ih]

theorem dbInv_save (db : List Repo) (url id : String) (h : DbInv db) :
    DbInv (SaveRepo db url id) := by
  obtain ⟨hnodup, hact⟩ := h
  by_cases hurl : db.any (fun r => r.url == url)
  · rw [SaveRepo, if_pos hurl]
    constructor
    · rw [urls_map_active]; exact hnodup
    · rw [activeCount, filter_active_map, List.length_map]
      exact filter_url_len_le_one db url hnodup
  · rw [SaveRepo, if_neg hurl]
    by_cases hid : db.any (fun r => r.id == id)
    · rw [if_pos hid]; exact ⟨hnodup, hact⟩
    · rw [if_neg hid]
      constructor
      · simp only [List.map_append, List.map_map]
        rw [List.nodup_append]
        refine ⟨?_, by simp, ?_⟩
        · have : (db.map fun r => { r with active := false }).map (fun r => r.url)
              = db.map (fun r => r.url) := urls_map_active db (fun _ => false)
          simp only [List.map_map] at this
          rw [this]; exact hnodup
        · intro u hu
          simp only [List.map_map, List.mem_map, Function.comp] at hu
          obtain ⟨r, hr, rfl⟩ := hu
          simp only [List.map_cons, List.map_nil, List.mem_singleton]
          intro heq
          rw [List.any_eq_true] at hurl
          exact hurl ⟨r, hr, by simp [heq]⟩
      · rw [activeCount, List.filter_append, filter_active_deact]
        simp

theorem dbInv_delete (db : List Repo) (id : String) (h : DbInv db) :
    DbInv (DeleteRepo db id) := by
  obtain ⟨hnodup, hcount⟩ := h
  constructor
  · exact List.Nodup.sublist (List.Sublist.map _ (List.filter_sublist db)) hnodup
  · rw [DeleteRepo, activeCount]
    calc ((db.filter (fun r => ¬ r.id == id)).filter (fun r => r.active)).length
        ≤ (db.filter (fun r => r.active)).length := by
          exact List.Sublist.length_le
            (List.Sublist.filter _ (List.filter_sublist db))
      _ ≤ 1 := hcount

theorem dbInv_events (evs : List DbEvent) (db : List Repo) (h : DbInv db) :
    DbInv (applyDbEvents db evs) := by
  induction evs generalizing db with
  | nil => exact h
  | cons e rest ih =>
      cases e with
      | save url id => exact ih _ (dbInv_save db url id h)
      | del id => exact ih _ (dbInv_delete db id h)

/-- Claim C4: after any sequence of registry mutations (SaveRepo,
DeleteRepo) starting from the freshly created empty table, the number of
rows with active = true is 0 or 1. -/
theorem C4_at_most_one_active (evs : List DbEvent) (db : List Repo)
    (h : applyDbEvents [] evs = db) :
    activeCount db = 0 ∨ activeCount db = 1 := by
  have hinv : DbInv (applyDbEvents [] evs) := dbInv_events evs [] dbInv_nil
  rw [h] at hinv
  have := hinv.2
  omega

/-- Concrete instance of C4: add two urls then delete the first row;
exactly one active row remains. -/
theorem C4_at_most_one_active_witness :
    activeCount (applyDbEvents []
      [.save "github.com/ex/r" "1", .save "github.com/ex/s" "2", .del "1"]) = 0 ∨
    activeCount (applyDbEvents []
      [.save "github.com/ex/r" "1", .save "github.com/ex/s" "2", .del "1"]) = 1 :=
  C4_at_most_one_active _ _ rfl

/-- Reactivation by url is idempotent. -/
theorem map_reactivate_idem (db : List Repo) (url : String) :
    (db.map (fun r => { r with active := r.url == url })).map
        (fun r => { r with active := r.url == url })
      = db.map (fun r => { r with active := r.url == url }) := by
  induction db with
  | nil => rfl
  | cons r rest ih => simp [ih]

/-- Rewriting the active column commutes with filtering by url. -/
theorem filter_url_map (db : List Repo) (url : String) (f : Repo → Bool) :
    (db.map (fun r => { r with active := f r })).filter (fun r => r.url == url)
      = (db.filter (fun r => r.url == url)).map (fun r => { r with active := f r }) := by
  induction db with
  | nil => rfl
  | cons r rest ih =>
      by_cases hu : r.url == url <;> simp [List.filter_cons, hu, ih]

/-- A matched url occurs in the table, so at least one row survives the
url filter. -/
theorem filter_url_len_ge_one (db : List Repo) (url : String)
    (h : db.any (fun r => r.url == url) = true) :
    1 ≤ (db.filter (fun r => r.url == url)).length := by
  rw [List.any_eq_true] at h
  obtain ⟨r, hr, hru⟩ := h
  exact List.length_pos_of_mem (List.mem_filter.2 ⟨hr, hru⟩)

/-- If no row matches the url, deactivating everything leaves no row
matching the url either. -/
theorem filter_url_deact_none (db : List Repo) (url : String)
    (h : db.any (fun r => r.url == url) = false) :
    (db.map (fun r => { r with active := false })).filter (fun r => r.url == url) = [] := by
  rw [List.filter_eq_nil_iff]
  intro x hx
  simp only [List.mem_map] at hx
  obtain ⟨r, hr, rfl⟩ := hx
  rw [List.any_eq_false] at h
  simpa using h r hr

/-- Claim C9: adding a url that already exists is idempotent.  With
unique urls and a fresh generated id, running SaveRepo twice with the
same url yields exactly the registry state of running it once; that state
has exactly one row with the url, and a row is active exactly when it
carries the url (so the existing row is the unique active row and no
duplicate is created). -/
theorem C9_add_idempotent (db : List Repo) (u id1 id2 : String)
    (hnodup : (db.map (fun r => r.url)).Nodup)
    (hid1 : ∀ r ∈ db, ¬ r.id = id1) :
    SaveRepo (SaveRepo db u id1) u id2 = SaveRepo db u id1 ∧
    ((SaveRepo db u id1).filter (fun r => r.url == u)).length = 1 ∧
    (∀ r ∈ SaveRepo db u id1, r.active = (r.url == u)) := by
  by_cases hurl : db.any (fun r => r.url == u) = true
  · have hsave : SaveRepo db u id1 = db.map (fun r => { r with active := r.url == u }) := by
      rw [SaveRepo, if_pos hurl]
    have hurl2 : (db.map (fun r => { r with active := r.url == u })).any
        (fun r => r.url == u) = true := by
      rw [List.any_eq_true] at hurl ⊢
      obtain ⟨r, hr, hru⟩ := hurl
      exact ⟨_, List.mem_map_of_mem _ hr, by simpa using hru⟩
    refine ⟨?_, ?_, ?_⟩
    · rw [hsave, SaveRepo, if_pos hurl2, map_reactivate_idem]
    · rw [hsave, filter_url_map, List.length_map]
      have hle := filter_url_len_le_one db u hnodup
      have hge := filter_url_len_ge_one db u hurl
      omega
    · intro r hr
      rw [hsave] at hr
      simp only [List.mem_map] at hr
      obtain ⟨r0, _, rfl⟩ := hr
      simp
  · have hurl0 : db.any (fun r => r.url == u) = false := by
      rw [Bool.not_eq_true] at hurl; exact hurl
    have hidneg : ¬ (db.any (fun r => r.id == id1) = true) := by
      rw [Bool.not_eq_true, List.any_eq_false]
      intro r hr
      simpa using hid1 r hr
    have hsave : SaveRepo db u id1
        = db.map (fun r => { r with active := false }) ++ [⟨id1, u, true⟩] := by
      rw [SaveRepo, if_neg hurl, if_neg hidneg]
    have hany2 : (SaveRepo db u id1).any (fun r => r.url == u) = true := by
      rw [hsave, List.any_eq_true]
      exact ⟨⟨id1, u, true⟩, by simp, by simp⟩
    refine ⟨?_, ?_, ?_⟩
    · rw [SaveRepo, if_pos hany2, hsave, List.map_append, List.map_map]
      congr 1
      · apply List.map_congr_left
        intro r hr
        have hru : (r.url == u) = false := by
          rw [List.any_eq_false] at hurl0
          simpa using hurl0 r hr
        simp [Function.comp, hru]
      · simp
    · rw [hsave, List.filter_append, filter_url_deact_none db u hurl0]
      simp
    · intro r hr
      rw [hsave] at hr
      rcases List.mem_append.1 hr with hr | hr
      · simp only [List.mem_map] at hr
        obtain ⟨r0, hr0, rfl⟩ := hr
        have hru : (r0.url == u) = false := by
          rw [List.any_eq_false] at hurl0
          simpa using hurl0 r0 hr0
        simp [hru]
      · rw [List.mem_singleton] at hr
        rw [hr]
        simp

/-- Concrete instance of C9: adding the same url twice over a one-row
table activates the existing row without duplicating it. -/
theorem C9_add_idempotent_witness :
    SaveRepo (SaveRepo [⟨"7", "github.com/ex/r", false⟩] "github.com/ex/r" "8")
        "github.com/ex/r" "9"
      = SaveRepo [⟨"7", "github.com/ex/r", false⟩] "github.com/ex/r" "8" ∧
    ((SaveRepo [⟨"7", "github.com/ex/r", false⟩] "github.com/ex/r" "8").filter
        (fun r => r.url == "github.com/ex/r")).length = 1 ∧
    (∀ r ∈ SaveRepo [⟨"7", "github.com/ex/r", false⟩] "github.com/ex/r" "8",
      r.active = (r.url == "github.com/ex/r")) :=
  C9_add_idempotent [⟨"7", "github.com/ex/r", false⟩] "github.com/ex/r" "8" "9"
    (by decide) (by decide)

/-! ## Flake enumeration: GetSystemPackages (nixapi.go lines 90-152) -/

/-- FlakeOutput from nixapi.go: the packages attribute of nix flake show,
keyed by host-system tuple and then by package key. -/
structure FlakeOutput where
  packages : List (String × List (String × PackageInfo))

/-- Outcome of running nix flake show and decoding its combined output:
either one of the failure branches of GetSystemPackages, or the decoded
FlakeOutput. -/
inductive FlakeShow where
  | timeout
  | cmdFailed (output : String)
  | noJson (output : String)
  | parseFailed (output : String)
  | parsed (f : FlakeOutput)

/-- GetSystemPackages from nixapi.go.  After a successful parse it
returns Packages[system]; a missing entry for the host system yields an
empty map and a nil error. -/
def GetSystemPackages (res : FlakeShow) (system : String) :
    Except String (List (String × PackageInfo)) :=
  match res with
  | .timeout => .error "operation timed out after 30s"
  | .cmdFailed output => .error ("failed to run nix flake show: " ++ output)
  | .noJson output => .error ("no JSON found in output: " ++ output)
  | .parseFailed output => .error ("failed to parse JSON output: " ++ output)
  | .parsed f =>
      match f.packages.lookup system with
      | none => .ok []
      | some pkgs => .ok pkgs

/-- The two error shapes Hydrate can return: the aggregated BuildError
(non-empty Failed map plus Success list), or the wrapped
GetSystemPackages failure. -/
inductive HydrateErr where
  | build (failed : List (String × BuildErr)) (success : List String)
  | getPackages (msg : String)
deriving DecidableEq, Repr

/-- Rendering of a HydrateErr: BuildError.Error() prints the failure
count, the other branch wraps the enumeration error. -/
def HydrateErr.msg : HydrateErr → String
  | .build failed _ => toString failed.length ++ " packages failed to build"
  | .getPackages m => "failed to get packages: " ++ m

/-- What one Hydrate call did: the new items map (none when the map was
left untouched because enumeration failed) and the return value. -/
structure HydrateOutcome where
  items : Option Items
  result : Except HydrateErr Unit

/-- Hydrate from sup.go as a function of the enumeration outcome and the
per-key build oracle.  On enumeration failure it returns the wrapped
error without touching the map; otherwise it installs the freshly built
set and returns BuildError exactly when some build failed. -/
def Hydrate (pkgsRes : Except String (List (String × PackageInfo)))
    (build : String → Except BuildErr BuildResult) : HydrateOutcome :=
  match pkgsRes with
  | .error e => ⟨none, .error (.getPackages e)⟩
  | .ok pkgs =>
      ⟨some (hydrateItems pkgs build),
       if hydrateFailed pkgs build = [] then .ok ()
       else .error (.build (hydrateFailed pkgs build) (hydrateSuccess pkgs build))⟩

/-- Claim C10: a repository whose flake output parses but has no packages
entry for the host-system tuple yields an empty map and no error from
GetSystemPackages; Hydrate on that result succeeds, installs an empty
managed-child map, and HasItems on a supervisor with an empty map is
false. -/
theorem C10_missing_system_empty (f : FlakeOutput) (system : String)
    (build : String → Except BuildErr BuildResult)
    (h : f.packages.lookup system = none) :
    GetSystemPackages (.parsed f) system = .ok [] ∧
    (Hydrate (GetSystemPackages (.parsed f) system) build).items = some [] ∧
    (Hydrate (GetSystemPackages (.parsed f) system) build).result = .ok () ∧
    (∀ live, HasItems ⟨[], live⟩ = false) := by
  have hg : GetSystemPackages (.parsed f) system = .ok [] := by
    simp [GetSystemPackages, h]
  refine ⟨hg, ?_, ?_, ?_⟩
  · rw [hg]; rfl
  · rw [hg]; rfl
  · intro live; rfl

/-- A flake with packages only for x86_64-linux, for the C10 witness. -/
def c10Flake : FlakeOutput :=
  ⟨[("x86_64-linux", [("web", ⟨"web", "derivation"⟩)])]⟩

/-- Concrete instance of C10 on a darwin host: enumeration returns the
empty map with no error. -/
theorem C10_missing_system_empty_witness :
    GetSystemPackages (.parsed c10Flake) "aarch64-darwin" = .ok [] ∧
    (Hydrate (GetSystemPackages (.parsed c10Flake) "aarch64-darwin")
        (fun _ => .error .noBinaries)).items = some [] ∧
    (Hydrate (GetSystemPackages (.parsed c10Flake) "aarch64-darwin")
        (fun _ => .error .noBinaries)).result = .ok () ∧
    (∀ live, HasItems ⟨[], live⟩ = false) :=
  C10_missing_system_empty c10Flake "aarch64-darwin" (fun _ => .error .noBinaries) rfl

/-! ## One-shot command surface: internal/cli/cli.go

Each cobra RunE handler becomes a function from its oracle inputs to the
error it returns plus what it printed to the session (stdout).
CreateMiddleware turns the returned error into the session exit code. -/

/-- The result of the middleware around one command: the exit code passed
to sess.Exit and the line written to sess.Stderr, if any (cli.go lines
485-523: Execute error prints to stderr and exits 1, otherwise exit 0). -/
structure SessionExit where
  exitCode : Nat
  stderrLine : Option String
deriving DecidableEq, Repr

/-- CreateMiddleware from cli.go, applied to the error the command
returned. -/
def sessionExit (cmdErr : Option String) : SessionExit :=
  match cmdErr with
  | some e => ⟨1, some ("Error: " ++ e)⟩
  | none => ⟨0, none⟩

/-- Oracle for one ctx update invocation: the active-repo lookup, the
enumeration outcome, and the per-key build outcomes. -/
structure CtxUpdateEnv where
  repoUrl : Except String String
  pkgsRes : Except String (List (String × PackageInfo))
  build : String → Except BuildErr BuildResult

/-- The error a cobra RunE handler returned, plus the lines it printed to
the session. -/
structure CmdResult where
  err : Option String
  lines : List String

/-- ctxUpdateCmd from cli.go (lines 46-86).  A BuildError from Hydrate is
reported as a build listing and swallowed (return nil); any other Hydrate
failure is propagated. -/
def ctxUpdateCmd (env : CtxUpdateEnv) : CmdResult :=
  match env.repoUrl with
  | .error e => ⟨some ("failed to get repository URL: " ++ e), []⟩
  | .ok url =>
      if url = "" then
        ⟨some "no repository set. Use nixtea ctx add to set a repository", []⟩
      else
        match (Hydrate env.pkgsRes env.build).result with
        | .ok _ =>
            ⟨none, ["→ Found active repository: " ++ url,
                    "✓ All packages built successfully!"]⟩
        | .error (.build failed success) =>
            ⟨none, ["→ Found active repository: " ++ url]
              ++ (if success.isEmpty then [] else
                    "✓ Successfully built packages:" :: success.map (fun k => "  • " ++ k))
              ++ (if failed.isEmpty then [] else
                    "✗ Failed to build packages:" ::
                      failed.map (fun ke => "  • " ++ ke.1 ++ ": " ++ ke.2.msg))⟩
        | .error (.getPackages m) =>
            ⟨some ("failed to hydrate: failed to get packages: " ++ m),
             ["→ Found active repository: " ++ url]⟩

/-- Claim C8: with an active repository, when enumeration succeeds but
some individual builds fail, ctx update returns nil (so the session exits
0) and its output lists every succeeded key and every failed key with its
error. -/
theorem C8_update_report (env : CtxUpdateEnv) (url : String)
    (pkgs : List (String × PackageInfo))
    (hurl : env.repoUrl = .ok url) (hne : ¬ url = "")
    (hpkgs : env.pkgsRes = .ok pkgs)
    (hfail : ¬ hydrateFailed pkgs env.build = []) :
    (ctxUpdateCmd env).err = none ∧
    (sessionExit (ctxUpdateCmd env).err).exitCode = 0 ∧
    (∀ k ∈ hydrateSuccess pkgs env.build, ("  • " ++ k) ∈ (ctxUpdateCmd env).lines) ∧
    (∀ ke ∈ hydrateFailed pkgs env.build,
      ("  • " ++ ke.1 ++ ": " ++ ke.2.msg) ∈ (ctxUpdateCmd env).lines) := by
  have hres : (Hydrate env.pkgsRes env.build).result
      = .error (.build (hydrateFailed pkgs env.build) (hydrateSuccess pkgs env.build)) := by
    simp [Hydrate, hpkgs, hfail]
  have hcmd : ctxUpdateCmd env
      = ⟨none, ["→ Found active repository: " ++ url]
          ++ (if (hydrateSuccess pkgs env.build).isEmpty then [] else
                "✓ Successfully built packages:"
                  :: (hydrateSuccess pkgs env.build).map (fun k => "  • " ++ k))
          ++ (if (hydrateFailed pkgs env.build).isEmpty then [] else
                "✗ Failed to build packages:"
                  :: (hydrateFailed pkgs env.build).map
                      (fun ke => "  • " ++ ke.1 ++ ": " ++ ke.2.msg))⟩ := by
    simp [ctxUpdateCmd, hurl, hne, hres]
  refine ⟨by rw [hcmd], by rw [hcmd]; rfl, ?_, ?_⟩
  · intro k hk
    rw [hcmd]
    have hsne : (hydrateSuccess pkgs env.build).isEmpty = false := by
      rcases hs : hydrateSuccess pkgs env.build with _ | _
      · rw [hs] at hk; cases hk
      · rfl
    rw [hsne]
    refine List.mem_append.2 (Or.inl (List.mem_append.2 (Or.inr ?_)))
    simp only [Bool.false_eq_true, if_false]
    exact List.mem_cons_of_mem _ (List.mem_map_of_mem _ hk)
  · intro ke hke
    rw [hcmd]
    have hfne : (hydrateFailed pkgs env.build).isEmpty = false := by
      rcases hs : hydrateFailed pkgs env.build with _ | _
      · exact absurd hs hfail
      · rfl
    rw [hfne]
    refine List.mem_append.2 (Or.inr ?_)
    simp only [Bool.false_eq_true, if_false]
    exact List.mem_cons_of_mem _ (List.mem_map_of_mem _ hke)

/-- The mixed repository of the C8 witness: one key builds, one fails. -/
def c8Env : CtxUpdateEnv :=
  ⟨.ok "github.com/ex/r",
   .ok [("ok1", ⟨"ok1", "derivation"⟩), ("bad1", ⟨"bad1", "derivation"⟩)],
   fun k => if k = "ok1" then .ok ⟨"/nix/store/o", "/nix/store/o/bin/ok1"⟩
            else .error .noBinaries⟩

/-- Concrete instance of C8: the mixed build exits 0 and its report names
the failed key with its error. -/
theorem C8_update_report_witness :
    (ctxUpdateCmd c8Env).err = none ∧
    (sessionExit (ctxUpdateCmd c8Env).err).exitCode = 0 ∧
    ("  • bad1: no binaries found") ∈ (ctxUpdateCmd c8Env).lines := by
  have h := C8_update_report c8Env "github.com/ex/r"
    [("ok1", ⟨"ok1", "derivation"⟩), ("bad1", ⟨"bad1", "derivation"⟩)]
    rfl (by decide) rfl (by decide)
  exact ⟨h.1, h.2.1, h.2.2.2 ("bad1", .noBinaries) (by decide)⟩

/-- Oracle for one pks start/run invocation: the active-repo lookup,
whether the supervisor already has items, the Hydrate outcome if it runs,
and the Run outcome. -/
structure PksRunEnv where
  repoUrl : Except String String
  hasItems : Bool
  hydrateRes : Except HydrateErr Unit
  runRes : Except String Unit

/-- What one pks start/run invocation produced: the error RunE returned,
whether the child transitioned to running, and the stdout lines. -/
structure PksRunResult where
  err : Option String
  childRunning : Bool
  stdoutLines : List String

/-- pksRunCmd from cli.go (lines 106-147).  A failing sp.Run prints the
failure to stdout and returns nil ("return nil to avoid double error
message"), so only the earlier failures propagate as command errors. -/
def pksRunCmd (key : String) (env : PksRunEnv) : PksRunResult :=
  match env.repoUrl with
  | .error e => ⟨some ("failed to get repository URL: " ++ e), false, []⟩
  | .ok url =>
      if url = "" then
        ⟨some "no repository set. Use nixtea ctx add to set a repository", false, []⟩
      else
        match (if env.hasItems then Except.ok () else env.hydrateRes) with
        | .error e =>
            ⟨some ("failed to hydrate supervisor: " ++ e.msg), false,
             ["→ Loading package state..."]⟩
        | .ok _ =>
            match env.runRes with
            | .error e =>
                ⟨none, false,
                 ["→ Starting package " ++ key ++ "...",
                  "✗ Failed to start package: " ++ e]⟩
            | .ok _ =>
                ⟨none, true,
                 ["→ Starting package " ++ key ++ "...",
                  "✓ Package " ++ key ++ " is now running"]⟩

/-- The C7 failing input: repository set, supervisor hydrated, and the
start call fails. -/
def c7Env : PksRunEnv :=
  ⟨.ok "github.com/ex/r", true, .ok (), .error "failed to start process"⟩

/-- Claim C7, counterexample: when sp.Run fails the handler returns nil,
so the session exits 0 although the child never transitioned to running
(the failure goes to stdout, not stderr). -/
theorem C7_counterexample :
    (sessionExit (pksRunCmd "k1" c7Env).err).exitCode = 0 ∧
    (pksRunCmd "k1" c7Env).childRunning = false ∧
    ("✗ Failed to start package: failed to start process")
        ∈ (pksRunCmd "k1" c7Env).stdoutLines := by
  refine ⟨rfl, rfl, by simp [pksRunCmd, c7Env, sessionExit]⟩

/-- Claim C7, amended: the session exits 0 whenever the handler reaches
the start call — both when the child transitioned to running and when
sp.Run itself fails (that failure is printed to stdout and swallowed);
every error before the start call (repository lookup failure, no
repository set, hydrate failure) exits 1 with a message on stderr. -/
theorem C7_exit_codes (key : String) (env : PksRunEnv) :
    ((pksRunCmd key env).childRunning = true →
      sessionExit (pksRunCmd key env).err = ⟨0, none⟩) ∧
    (∀ e, (pksRunCmd key env).err = some e →
      (sessionExit (pksRunCmd key env).err).exitCode = 1 ∧
      (sessionExit (pksRunCmd key env).err).stderrLine = some ("Error: " ++ e)) ∧
    (∀ url e, env.repoUrl = .ok url → ¬ url = "" →
      (env.hasItems = true ∨ env.hydrateRes = .ok ()) →
      env.runRes = .error e →
      (sessionExit (pksRunCmd key env).err).exitCode = 0 ∧
      (pksRunCmd key env).childRunning = false ∧
      ("✗ Failed to start package: " ++ e) ∈ (pksRunCmd key env).stdoutLines) := by
  refine ⟨?_, ?_, ?_⟩
  · intro hrun
    rcases hu : env.repoUrl with e | url
    · rw [pksRunCmd, hu] at hrun; cases hrun
    · by_cases hurl : url = ""
      · simp [pksRunCmd, hu, hurl] at hrun
      · rcases hh : (if env.hasItems then Except.ok () else env.hydrateRes) with e | u
        · simp [pksRunCmd, hu, hurl, hh] at hrun
        · rcases hr : env.runRes with e | u2
          · simp [pksRunCmd, hu, hurl, hh, hr] at hrun
          · simp [pksRunCmd, sessionExit, hu, hurl, hh, hr]
  · intro e he
    simp [sessionExit, he]
  · intro url e hu hurl hready hr
    have hh : (if env.hasItems then Except.ok () else env.hydrateRes) = Except.ok () := by
      rcases hready with h1 | h1
      · rw [h1]; rfl
      · by_cases hi : env.hasItems
        · rw [if_pos hi]
        · rw [if_neg hi]; exact h1
    refine ⟨?_, ?_, ?_⟩
    · simp [pksRunCmd, sessionExit, hu, hurl, hh, hr]
    · simp [pksRunCmd, hu, hurl, hh, hr]
    · simp [pksRunCmd, hu, hurl, hh, hr]

/-- Concrete instance of the amended C7 statement at the failing start. -/
theorem C7_exit_codes_witness :
    (sessionExit (pksRunCmd "k2" c7Env).err).exitCode = 0 ∧
    (pksRunCmd "k2" c7Env).childRunning = false ∧
    ("✗ Failed to start package: failed to start process")
        ∈ (pksRunCmd "k2" c7Env).stdoutLines :=
  (C7_exit_codes "k2" c7Env).2.2 "github.com/ex/r" "failed to start process"
    rfl (by decide) (Or.inl rfl) rfl

end Nixtea
